import Mathlib

/-!
Verification of the `cpp_di` dependency-injection container (src/cpp_di.hpp).

C++ types are identified by natural-number labels (`Ty`).  The runtime part of
the container (`di::registry`, `di::add`, `di::get`) is embedded as explicit
state passing over `State`; the compile-time parts (the `type_registry`
ledger, constructor-signature discovery in namespace `refl`, and the
`construct_tuple_assign` shared-pointer check) are embedded as executable
functions over whole programs and over type descriptions.
-/

/-- A C++ type, identified by a label.  The container keys all of its
per-type static state (`registry<T>`) by the type, so a label is enough. -/
abbrev Ty := Nat

/-- Pointwise update of a function out of `Ty`; models writing one type's
static slot (e.g. `registry<T>::constructor`) while leaving others alone. -/
def setF {α : Type} (f : Ty → α) (t : Ty) (a : α) : Ty → α :=
  fun u => if u = t then a else f u

/-- Increment one slot of a counter family. -/
def bumpF (f : Ty → Nat) (t : Ty) : Ty → Nat :=
  setF f t (f t + 1)

/-- The factory stored in `registry<INTERFACE_T>::constructor` by `di::add`
(src/cpp_di.hpp:188-238).  `impl` is the concrete type `T` whose object the
closure creates (`make_shared<T>`, upcast to the interface when they differ);
`deps` are the element types of the `std::shared_ptr` constructor parameters
that the closure resolves via `registry<E>::get()` before construction
(empty for the default-constructible branch). -/
structure Factory where
  impl : Ty
  deps : List Ty
deriving DecidableEq

/-- The only runtime error the container can produce: invoking an empty
`std::function` (`registry<T>::constructor` never set by any `add`) throws
`std::bad_function_call`.  The payload records which type's registry slot
was empty. -/
inductive RtErr where
  | badFunctionCall (t : Ty)
deriving DecidableEq

/-- The process-wide static state of the container:
`ctors` is `registry<T>::constructor`, `cache` is `registry<T>::obj` together
with the completed `once_flag` (`some id` exactly when the flag is set and the
object stored), `running` is the once-flag's "initialization in progress"
state (a reentrant `std::call_once` on an active flag deadlocks), `marks`
mirrors the `type_registry` friend-injection ledger, `nextId` is a fresh-name
source identifying distinct constructed instances, `facRuns t` counts
completed evaluations of `registry<t>::constructor` (each of which runs the
implementation's constructor once), and `implRuns m` counts constructions of
concrete type `m` across all bindings. -/
structure State where
  ctors : Ty → Option Factory
  cache : Ty → Option Nat
  running : Ty → Bool
  marks : Ty → Bool
  nextId : Nat
  facRuns : Ty → Nat
  implRuns : Ty → Nat

/-- The state at process start: no factories, no cached objects, no marks. -/
def initState : State :=
  ⟨fun _ => none, fun _ => none, fun _ => false, fun _ => false, 0,
   fun _ => 0, fun _ => 0⟩

/-- Result of one `registry<T>::get()` call: `none` models a call that does
not finish (out of fuel, or the self-deadlock of a reentrant `call_once`);
`some (.error e)` a thrown exception; `some (.ok (s, id))` normal return of
the handle `id` with post-state `s`. -/
abbrev GetRes := Option (Except RtErr (State × Nat))

/-- Result of resolving a list of dependencies (`construct_tuple`,
src/cpp_di.hpp:146-157): the ids of the resolved handles, in tuple order. -/
abbrev DepsRes := Option (Except RtErr (State × List Nat))

/-- `construct_tuple` (src/cpp_di.hpp:146-157): assign each tuple slot in
index order by calling `registry<E>::get()` for its element type `E`
(`construct_tuple_assign`, line 138).  The braced-init-list guarantees
left-to-right evaluation, so resolution is sequential in signature order.
The actual `get` is passed in as `g` (one fuel level below the caller). -/
def resolveDepsWith (g : Ty → State → GetRes) : List Ty → State → DepsRes
  | [], s => some (.ok (s, []))
  | e :: es, s =>
    match g e s with
    | none => none
    | some (.error er) => some (.error er)
    | some (.ok (s1, id)) =>
      match resolveDepsWith g es s1 with
      | none => none
      | some (.error er) => some (.error er)
      | some (.ok (s2, ids)) => some (.ok (s2, id :: ids))

/-- `registry<T>::get()` (src/cpp_di.hpp:181-185):
`std::call_once(flag, [](){ obj = constructor(); }); return obj;`
If the flag is already set, return the cached object.  If the flag's
initialization is active (reentrant call during dependency resolution),
`call_once` blocks on itself forever (`none`).  Otherwise run the stored
factory: an empty `std::function` throws `bad_function_call`; a stored
factory first resolves its dependency list (recursively calling `get`),
then constructs the instance (fresh id), caches it and sets the flag.
Fuel bounds the recursion depth; a run that cannot finish within any
fuel models nontermination. -/
def registryGet : Nat → Ty → State → GetRes
  | 0, _, _ => none
  | fuel + 1, t, s =>
    match s.cache t with
    | some id => some (.ok (s, id))
    | none =>
      if s.running t then none
      else
        match s.ctors t with
        | none => some (.error (.badFunctionCall t))
        | some fac =>
          match resolveDepsWith (registryGet fuel) fac.deps
              { s with running := setF s.running t true } with
          | none => none
          | some (.error er) => some (.error er)
          | some (.ok (s2, _)) =>
            some (.ok ({ s2 with
              cache := setF s2.cache t (some s2.nextId),
              running := setF s2.running t false,
              nextId := s2.nextId + 1,
              facRuns := bumpF s2.facRuns t,
              implRuns := bumpF s2.implRuns fac.impl }, s2.nextId))

/-- A constructor parameter type as seen by the discovered tuple
(`std::tuple_element<N, TUPLE_T>::type`): either `std::shared_ptr<E>` for
some element type `E` or some other (plain) type.  `internal::is_shared_ptr`
(src/cpp_di.hpp:121-122) distinguishes the two shapes. -/
inductive CtorParam where
  | sptr (e : Ty)
  | plain (u : Ty)
deriving DecidableEq

/-- `internal::is_shared_ptr<T>::value`. -/
def CtorParam.isSptr : CtorParam → Bool
  | .sptr _ => true
  | .plain _ => false

/-- The `element_type` used when the parameter is a shared pointer (for a
plain type the code never reads an element type; returning the carried label
totalizes the function). -/
def CtorParam.elemTy : CtorParam → Ty
  | .sptr e => e
  | .plain u => u

/-- `di::construct_tuple_assign<BASE_T, N>` (src/cpp_di.hpp:133-144), as the
compile-time decision for one tuple slot: a `shared_ptr<E>` parameter is
resolved by `registry<E>::get()` (returns `E`); any other parameter type
instantiates `fail_type<BASE_T, T>` whose `static_assert` fails the build.
The error payload carries the two template arguments of `fail_type`: the
offending class and the offending parameter type. -/
def construct_tuple_assign (base : Ty) (p : CtorParam) : Except (Ty × CtorParam) Ty :=
  match p with
  | .sptr e => .ok e
  | .plain u => .error (base, .plain u)

/-- All slots of the discovered tuple, in index order
(`construct_tuple<BASE_T, 0, tuple_size>`, src/cpp_di.hpp:146-157): the plan
either fails the build at an offending slot or yields the ordered list of
element types to resolve via `get`. -/
def construct_tuple_plan (base : Ty) : List CtorParam → Except (Ty × CtorParam) (List Ty)
  | [] => .ok []
  | p :: ps =>
    match construct_tuple_assign base p with
    | .error er => .error er
    | .ok e =>
      match construct_tuple_plan base ps with
      | .error er => .error er
      | .ok es => .ok (e :: es)

/-- The first constructor parameter that is not a shared pointer, if any
(the slot whose `fail_type` instantiation the build reports). -/
def firstNonSptr (ps : List CtorParam) : Option CtorParam :=
  ps.find? (fun p => !p.isSptr)

/-- The compile-time facts about the program's C++ types that `di::add`
consumes: the subtype relation (`std::is_base_of_v`), default
constructibility (`std::is_default_constructible_v`), and, for types without
a default constructor, the constructor signature discovered by
`refl::as_tuple` (src/cpp_di.hpp:213). -/
structure World where
  isBaseOf : Ty → Ty → Bool
  defaultConstructible : Ty → Bool
  sig : Ty → List CtorParam

/-- The factory closure `di::add<INTERFACE_T, T>` would store
(src/cpp_di.hpp:198-205 and 220-237): for a default-constructible `T` it is
`make_shared<T>()` (no dependencies); otherwise it resolves the discovered
tuple's element types and constructs from them.  `none` when the
`construct_tuple` plan fails to compile (no factory can be built). -/
def factoryFor (w : World) (t : Ty) : Option Factory :=
  if w.defaultConstructible t then some ⟨t, []⟩
  else
    match construct_tuple_plan t (w.sig t) with
    | .ok es => some ⟨t, es⟩
    | .error _ => none

/-- `di::add<INTERFACE_T, T>` (src/cpp_di.hpp:188-238): first
`type_registry::set_type<INTERFACE_T>()` marks the interface in the ledger;
then, if `registry<INTERFACE_T>::constructor` is already set, return
(first writer wins); otherwise store the factory under the interface.
Marking does not touch the factory slot, so it is equivalent to perform it
in each branch of the constructor check. -/
def di_add (w : World) (i t : Ty) (s : State) : State :=
  if (s.ctors i).isSome then { s with marks := setF s.marks i true }
  else { s with marks := setF s.marks i true,
                ctors := setF s.ctors i (factoryFor w t) }

/-- A wiring phase: a sequence of `add` calls (each pair is
`(INTERFACE_T, T)`; the single-type form `add<T>` is the pair `(T, T)`). -/
def applyAdds (w : World) (l : List (Ty × Ty)) (s : State) : State :=
  l.foldl (fun s p => di_add w p.1 p.2 s) s

/-- One container call appearing in the program's source. -/
inductive Op where
  | addOp (i t : Ty)
  | getOp (t : Ty)
deriving DecidableEq

/-- The `type_registry` ledger of a translation unit: `set_type<T>` is
instantiated by every `add<T, ...>` appearing anywhere in the program, so a
type is marked iff some `add` names it as the interface — independent of
runtime order (friend injection happens at template instantiation time). -/
def progMarks (P : List Op) (v : Ty) : Bool :=
  P.any fun op =>
    match op with
    | .addOp i _ => i == v
    | .getOp _ => false

/-- `type_registry::check_type<T>` (src/cpp_di.hpp:112-116): compiles only
if `not_detected_in_di_container(tag_t<T>)` was defined by a `set_type<T>`
instantiation; otherwise the build fails with a diagnostic whose subject is
the unregistered type `T` itself (the error payload). -/
def check_type (marks : Ty → Bool) (t : Ty) : Except Ty Unit :=
  if marks t then .ok () else .error t

/-- Whether `add<i, t>` compiles: the `enable_if` constraint
`is_same_v<INTERFACE_T, T> || is_base_of_v<INTERFACE_T, T>`
(src/cpp_di.hpp:188, 208), and — for a type without a default constructor —
that the factory body itself compiles (every discovered parameter is a
shared pointer). -/
def addCompiles (w : World) (i t : Ty) : Bool :=
  (i == t || w.isBaseOf i t) && (factoryFor w t).isSome

/-- Whether one operation of program `P` compiles: `get<T>` requires the
ledger check, `add` its `enable_if` and body. -/
def opCompiles (w : World) (P : List Op) : Op → Bool
  | .addOp i t => addCompiles w i t
  | .getOp t => (check_type (progMarks P) t).isOk

/-- Whether the whole program compiles. -/
def progCompiles (w : World) (P : List Op) : Bool :=
  P.all (opCompiles w P)

/-- Run the program's calls in order against the container state.  A `get`
that throws terminates the process with that error; one that blocks forever
(or exceeds the fuel) yields `none`. -/
def runProg (f : Nat) (w : World) : List Op → State → Option (Except RtErr State)
  | [], s => some (.ok s)
  | .addOp i t :: rest, s => runProg f w rest (di_add w i t s)
  | .getOp t :: rest, s =>
    match registryGet f t s with
    | none => none
    | some (.error e) => some (.error e)
    | some (.ok (s1, _)) => runProg f w rest s1

/-- Did the program run end in a runtime error (an escaped exception)? -/
def isErrorRun : Option (Except RtErr State) → Bool
  | some (.error _) => true
  | _ => false

/-- Post-state projection of a `get` result (defaulting to `initState`),
used to name the resulting state of a concrete successful call. -/
def resPState (r : GetRes) : State :=
  match r with
  | some (.ok (s, _)) => s
  | _ => initState

/-- Handle projection of a `get` result. -/
def resPId (r : GetRes) : Nat :=
  match r with
  | some (.ok (_, id)) => id
  | _ => 0


/-- `refl::fields_number_ctor` (src/cpp_di.hpp:67-75), abstracted over the
compile-time predicate `viable n` = "direct parenthesized construction
`T(c_op<T,0>{}, ..., c_op<T,n-1>{})` is well-formed".  The overload taking
`int` is preferred whenever its SFINAE check (`viable` at the current pack
size) succeeds and returns that size; otherwise the `...` overload recurses
with the pack grown by one.  The template recursion depth is the fuel:
exceeding it is the compiler's depth limit (build failure), `none`. -/
def fields_number_ctor (viable : Nat → Bool) : Nat → Nat → Option Nat
  | 0, _ => none
  | fuel + 1, n => if viable n then some n else fields_number_ctor viable fuel (n + 1)

/-- `refl::fields_number` (src/cpp_di.hpp:56-62), abstracted over the
compile-time predicate `viable n` = "list-initialization `T{...}` from `n`
probe values is well-formed".  While the probe count is viable the `int`
overload recurses with one more probe; at the first non-viable count the
`...` overload returns `sizeof...(Ns) - 1`, i.e. that count minus one
(as a signed value: for a count of zero it is `-1`). -/
def fields_number (viable : Nat → Bool) : Nat → Nat → Option Int
  | 0, _ => none
  | fuel + 1, n =>
    if viable n then fields_number viable fuel (n + 1)
    else some ((n : Int) - 1)

/-- `refl::as_tuple<T>` (src/cpp_di.hpp:86-88): the tuple of the types
recorded by `loophole(tag<T, N>)` for `N` below `fields_number_ctor<T>(0)`,
read back in index order.  `rcd n` is the type recorded at index `n` during
probing. -/
def as_tuple (viable : Nat → Bool) (rcd : Nat → Ty) (fuel : Nat) : Option (List Ty) :=
  (fields_number_ctor viable fuel 0).map fun n => (List.range n).map rcd

/-- A C++ type expression for the probing machinery: a core type possibly
wrapped in cv-qualifiers and a reference. -/
structure CppTy where
  core : Ty
  isConst : Bool
  isVolatile : Bool
  isRef : Bool
deriving DecidableEq

/-- `std::remove_reference_t`. -/
def remove_reference (c : CppTy) : CppTy := { c with isRef := false }

/-- `std::remove_cv_t`. -/
def remove_cv (c : CppTy) : CppTy := { c with isConst := false, isVolatile := false }

/-- `remove_cv_t<remove_reference_t<_>>`, the normalization both sides of
`fn_def`'s `enable_if` comparison go through (src/cpp_di.hpp:26-29). -/
def stripCvRef (c : CppTy) : CppTy := remove_cv (remove_reference c)

/-- The `enable_if` guard of the defining `fn_def<T, U, N, false>`
specialization (src/cpp_di.hpp:25-33): the instantiation that defines
`loophole(tag<T, N>) -> U` (recording `U` at index `N`) exists only when
`U` and `T` differ modulo cv-qualifiers and references. -/
def fn_def_enabled (t u : CppTy) : Bool :=
  !(stripCvRef t == stripCvRef u)

/-- Viability of the conversion `c_op<T, N>::operator U()`
(src/cpp_di.hpp:42-51): its default template argument is
`sizeof(fn_def<T, U, N, B>)` where `B` is true iff `cloophole(tag<T, N>)`
is already defined (index `N` was registered by an earlier probe).  For a
fresh index (`B = false`) the guarded `fn_def` must instantiate, so the
`enable_if` applies; for an already registered index the unconstrained empty
specialization `fn_def<T, U, N, true>` is taken and the conversion is viable
for every `U`. -/
def c_op_convertible (t : CppTy) (registered : Bool) (u : CppTy) : Bool :=
  if registered then true else fn_def_enabled t u

/-- During one discovery run the probe counts grow `0, 1, 2, ...` and a
successful attempt at count `k` registers indices `0..k-1`; hence at the
attempt with count `arity`, probe index `idx` is already registered iff
`idx + 1 < arity`. -/
def probeRegistered (arity idx : Nat) : Bool :=
  idx + 1 < arity

/-- A completed discovery run for type `t` whose probing recorded the types
`fieldTys` (index order): every recorded type was produced by an
instantiation of the guarded `fn_def<T, U, N, false>`, so the run exists
only when every recorded type passes the `enable_if` guard. -/
def discoverSig (t : CppTy) (fieldTys : List CppTy) : Option (List CppTy) :=
  if fieldTys.all (fun u => fn_def_enabled t u) then some fieldTys else none

/-- A world with only default-constructible types and no inheritance; enough
for the concrete wiring scenarios below. -/
def wDefault : World :=
  ⟨fun _ _ => false, fun _ => true, fun _ => []⟩

/-- The two-line program that compiles (the ledger is order-independent) but
calls `get<0>` before any `add` has run. -/
def progGetBeforeAdd : List Op := [.getOp 0, .addOp 0 0]

/-- State after the single wiring call `add<0, 0>` in `wDefault`. -/
def oneAddState : State := di_add wDefault 0 0 initState

/-- A set of types `R` is wired in state `s` when every type in it has a
stored factory whose dependency element types stay inside `R`; for `R`
containing `T` this says a factory is stored for `T` and for every type in
`T`'s transitive dependency closure — exactly the types a `get<T>()` call
resolves. -/
def ClosedWired (s : State) (R : Ty → Prop) : Prop :=
  ∀ v, R v → ∃ fac, s.ctors v = some fac ∧ ∀ e ∈ fac.deps, R e

/-- The world of the C5 witness: type 2 has no default constructor and its
discovered signature is one `shared_ptr<1>` parameter; everything else is
default-constructible. -/
def wChain : World :=
  ⟨fun _ _ => false, fun t => t != 2, fun _ => [CtorParam.sptr 1]⟩

/-- A wiring-reachable state with a dependency chain: `add<1, 1>` then
`add<0, 2>`, so interface 0's factory constructs type 2 from a handle that
`get<1>()` resolves. -/
def chainState : State := applyAdds wChain [(1, 1), (0, 2)] initState

/-- The dependency closure of type 0 in `chainState`: types 0 and 1. -/
def depsR : Ty → Prop := fun v => v = 0 ∨ v = 1


/-- What a successful `get` preserves of the state: it never writes a
factory slot, it restores every once-flag it touches, and a type whose
once-initialization is currently active (its flag held by a caller further
up the stack) is untouched — its cached object and its factory-run count
cannot change, because any reentrant `get` on it deadlocks instead of
finishing. -/
def Pres (s s' : State) : Prop :=
  s'.ctors = s.ctors ∧ s'.running = s.running ∧
  ∀ v, s.running v = true → s'.cache v = s.cache v ∧ s'.facRuns v = s.facRuns v

theorem Pres.refl (s : State) : Pres s s :=
  ⟨rfl, rfl, fun _ _ => ⟨rfl, rfl⟩⟩

theorem Pres.trans {s s1 s2 : State} (h1 : Pres s s1) (h2 : Pres s1 s2) : Pres s s2 := by
  obtain ⟨hc1, hr1, hf1⟩ := h1
  obtain ⟨hc2, hr2, hf2⟩ := h2
  refine ⟨hc2.trans hc1, hr2.trans hr1, fun v hv => ?_⟩
  have hv1 : s1.running v = true := by rw [hr1]; exact hv
  obtain ⟨ha, hb⟩ := hf1 v hv
  obtain ⟨ha', hb'⟩ := hf2 v hv1
  exact ⟨ha'.trans ha, hb'.trans hb⟩

/-- The preservation statement for `registryGet` at one fuel level. -/
def MG (f : Nat) : Prop :=
  ∀ t s s' id, registryGet f t s = some (.ok (s', id)) → Pres s s'

/-- The preservation statement for dependency resolution at one fuel level. -/
def MR (f : Nat) : Prop :=
  ∀ es s s' ids, resolveDepsWith (registryGet f) es s = some (.ok (s', ids)) → Pres s s'

theorem mr_of_mg (f : Nat) (hg : MG f) : MR f := by
  intro es
  induction es with
  | nil =>
    intro s s' ids h
    simp only [resolveDepsWith, Option.some.injEq, Except.ok.injEq, Prod.mk.injEq] at h
    obtain ⟨⟨rfl, -⟩⟩ := h
    exact Pres.refl s
  | cons e es ih =>
    intro s s' ids h
    simp only [resolveDepsWith] at h
    cases h1 : registryGet f e s with
    | none => rw [h1] at h; exact absurd h (by simp)
    | some r1 =>
      cases r1 with
      | error er => rw [h1] at h; exact absurd h (by simp)
      | ok p1 =>
        obtain ⟨s1, id1⟩ := p1
        rw [h1] at h
        dsimp only at h
        cases h2 : resolveDepsWith (registryGet f) es s1 with
        | none => rw [h2] at h; exact absurd h (by simp)
        | some r2 =>
          cases r2 with
          | error er => rw [h2] at h; exact absurd h (by simp)
          | ok p2 =>
            obtain ⟨s2, ids2⟩ := p2
            rw [h2] at h
            simp only [Option.some.injEq, Except.ok.injEq, Prod.mk.injEq] at h
            obtain ⟨rfl, -⟩ := h
            exact Pres.trans (hg _ _ _ _ h1) (ih _ _ _ h2)

theorem mg_succ (f : Nat) (hr : MR f) : MG (f + 1) := by
  intro t s s' id h
  simp only [registryGet] at h
  cases hc : s.cache t with
  | some j =>
    rw [hc] at h
    simp only [Option.some.injEq, Except.ok.injEq, Prod.mk.injEq] at h
    obtain ⟨rfl, -⟩ := h
    exact Pres.refl s
  | none =>
    rw [hc] at h
    dsimp only at h
    by_cases hrt : s.running t
    · rw [if_pos hrt] at h; exact absurd h (by simp)
    · rw [if_neg hrt] at h
      have hrt' : s.running t = false := by
        cases hb : s.running t with
        | false => rfl
        | true => exact absurd hb hrt
      cases hf : s.ctors t with
      | none => rw [hf] at h; exact absurd h (by simp)
      | some fac =>
        rw [hf] at h
        dsimp only at h
        cases hd : resolveDepsWith (registryGet f) fac.deps
            { s with running := setF s.running t true } with
        | none => rw [hd] at h; exact absurd h (by simp)
        | some r2 =>
          cases r2 with
          | error er => rw [hd] at h; exact absurd h (by simp)
          | ok p2 =>
            obtain ⟨s2, ids⟩ := p2
            rw [hd] at h
            simp only [Option.some.injEq, Except.ok.injEq, Prod.mk.injEq] at h
            obtain ⟨rfl, -⟩ := h
            obtain ⟨hcs, hrs, hfs⟩ := hr _ _ _ _ hd
            refine ⟨hcs, ?_, fun v hv => ?_⟩
            · funext v
              by_cases hvt : v = t
              · subst hvt
                simp [setF, hrt']
              · have : s2.running v = s.running v := by
                  rw [hrs]; simp [setF, hvt]
                simp [setF, hvt, this]
            · have hvt : v ≠ t := fun hvt => by rw [hvt] at hv; rw [hv] at hrt'; cases hrt'
              have hv1 : ({ s with running := setF s.running t true } : State).running v = true := by
                simp [setF, hvt, hv]
              obtain ⟨ha, hb⟩ := hfs v hv1
              constructor
              · show setF s2.cache t (some s2.nextId) v = s.cache v
                simp only [setF, if_neg hvt]
                exact ha
              · show bumpF s2.facRuns t v = s.facRuns v
                simp only [bumpF, setF, if_neg hvt]
                exact hb

theorem mg_all (f : Nat) : MG f := by
  induction f with
  | zero => intro t s s' id h; exact absurd h (by simp [registryGet])
  | succ f ih => exact mg_succ f (mr_of_mg f ih)

theorem mr_all (f : Nat) : MR f := mr_of_mg f (mg_all f)

/-- A `get` on a type whose once-flag is set returns the cached handle at
once, leaving the state untouched (src/cpp_di.hpp:183-184). -/
theorem registryGet_cached (f : Nat) (t : Ty) (s : State) (id : Nat)
    (h : s.cache t = some id) :
    registryGet (f + 1) t s = some (.ok (s, id)) := by
  simp [registryGet, h]

/-- A successful `get` leaves the once-flag set and the returned handle
cached under its type. -/
theorem registryGet_cacheSet (f : Nat) (t : Ty) (s s' : State) (id : Nat)
    (h : registryGet f t s = some (.ok (s', id))) :
    s'.cache t = some id := by
  cases f with
  | zero => exact absurd h (by simp [registryGet])
  | succ f =>
    simp only [registryGet] at h
    cases hc : s.cache t with
    | some j =>
      rw [hc] at h
      simp only [Option.some.injEq, Except.ok.injEq, Prod.mk.injEq] at h
      obtain ⟨rfl, rfl⟩ := h
      exact hc
    | none =>
      rw [hc] at h
      dsimp only at h
      by_cases hrt : s.running t
      · rw [if_pos hrt] at h; exact absurd h (by simp)
      · rw [if_neg hrt] at h
        cases hf : s.ctors t with
        | none => rw [hf] at h; exact absurd h (by simp)
        | some fac =>
          rw [hf] at h
          dsimp only at h
          cases hd : resolveDepsWith (registryGet f) fac.deps
              { s with running := setF s.running t true } with
          | none => rw [hd] at h; exact absurd h (by simp)
          | some r2 =>
            cases r2 with
            | error er => rw [hd] at h; exact absurd h (by simp)
            | ok p2 =>
              obtain ⟨s2, ids⟩ := p2
              rw [hd] at h
              simp only [Option.some.injEq, Except.ok.injEq, Prod.mk.injEq] at h
              obtain ⟨rfl, rfl⟩ := h
              show setF s2.cache t (some s2.nextId) t = some s2.nextId
              simp [setF]

/-- Constructing a type whose once-flag was clear runs its stored factory
exactly once: any reentrant `get` on the same type during dependency
resolution deadlocks instead of completing, so a successful call increments
the factory-run counter of its type by exactly one. -/
theorem registryGet_exactOnce (f : Nat) (t : Ty) (s s' : State) (id : Nat)
    (hc : s.cache t = none) (hrt : s.running t = false)
    (h : registryGet (f + 1) t s = some (.ok (s', id))) :
    s'.facRuns t = s.facRuns t + 1 := by
  simp only [registryGet] at h
  rw [hc] at h
  dsimp only at h
  rw [hrt] at h
  simp only [Bool.false_eq_true, if_false] at h
  cases hf : s.ctors t with
  | none => rw [hf] at h; exact absurd h (by simp)
  | some fac =>
    rw [hf] at h
    dsimp only at h
    cases hd : resolveDepsWith (registryGet f) fac.deps
        { s with running := setF s.running t true } with
    | none => rw [hd] at h; exact absurd h (by simp)
    | some r2 =>
      cases r2 with
      | error er => rw [hd] at h; exact absurd h (by simp)
      | ok p2 =>
        obtain ⟨s2, ids⟩ := p2
        rw [hd] at h
        simp only [Option.some.injEq, Except.ok.injEq, Prod.mk.injEq] at h
        obtain ⟨rfl, -⟩ := h
        obtain ⟨-, -, hfs⟩ := mr_all f _ _ _ _ hd
        have hrun : ({ s with running := setF s.running t true } : State).running t = true := by
          simp [setF]
        obtain ⟨-, hb⟩ := hfs t hrun
        show bumpF s2.facRuns t t = s.facRuns t + 1
        simp [bumpF, setF, hb]

/-- The error-freedom statement for `registryGet` at one fuel level: a
`get` on a type whose transitive dependency closure is wired never throws. -/
def EG (f : Nat) : Prop :=
  ∀ t s (R : Ty → Prop), ClosedWired s R → R t →
    ∀ e, registryGet f t s ≠ some (.error e)

/-- Error-freedom for dependency resolution at one fuel level: resolving a
list of types drawn from a wired closure never throws. -/
def ER (f : Nat) : Prop :=
  ∀ es s (R : Ty → Prop), ClosedWired s R → (∀ x ∈ es, R x) →
    ∀ e, resolveDepsWith (registryGet f) es s ≠ some (.error e)

theorem er_of_eg (f : Nat) (hg : EG f) : ER f := by
  intro es
  induction es with
  | nil => intro s R _ _ e h; exact absurd h (by simp [resolveDepsWith])
  | cons e es ih =>
    intro s R hR hmem er h
    simp only [resolveDepsWith] at h
    cases h1 : registryGet f e s with
    | none => rw [h1] at h; exact absurd h (by simp)
    | some r1 =>
      cases r1 with
      | error er1 => exact hg e s R hR (hmem e (List.mem_cons_self e es)) er1 h1
      | ok p1 =>
        obtain ⟨s1, id1⟩ := p1
        rw [h1] at h
        dsimp only at h
        have hR1 : ClosedWired s1 R := by
          intro v hv
          obtain ⟨hcs, -, -⟩ := mg_all f _ _ _ _ h1
          obtain ⟨fac, hfac, hdeps⟩ := hR v hv
          exact ⟨fac, by rw [hcs]; exact hfac, hdeps⟩
        have hmem1 : ∀ x ∈ es, R x := fun x hx => hmem x (List.mem_cons_of_mem e hx)
        cases h2 : resolveDepsWith (registryGet f) es s1 with
        | none => rw [h2] at h; exact absurd h (by simp)
        | some r2 =>
          cases r2 with
          | error er2 => exact ih s1 R hR1 hmem1 er2 h2
          | ok p2 =>
            obtain ⟨s2, ids2⟩ := p2
            rw [h2] at h
            exact absurd h (by simp)

theorem eg_succ (f : Nat) (hr : ER f) : EG (f + 1) := by
  intro t s R hR ht e h
  simp only [registryGet] at h
  cases hc : s.cache t with
  | some j => rw [hc] at h; exact absurd h (by simp)
  | none =>
    rw [hc] at h
    dsimp only at h
    by_cases hrt : s.running t
    · rw [if_pos hrt] at h; exact absurd h (by simp)
    · rw [if_neg hrt] at h
      obtain ⟨fac, hfac, hdeps⟩ := hR t ht
      rw [hfac] at h
      dsimp only at h
      have hR1 : ClosedWired { s with running := setF s.running t true } R := hR
      cases hd : resolveDepsWith (registryGet f) fac.deps
          { s with running := setF s.running t true } with
      | none => rw [hd] at h; exact absurd h (by simp)
      | some r2 =>
        cases r2 with
        | error er2 => exact hr fac.deps _ R hR1 hdeps er2 hd
        | ok p2 =>
          obtain ⟨s2, ids⟩ := p2
          rw [hd] at h
          exact absurd h (by simp)

theorem eg_all (f : Nat) : EG f := by
  induction f with
  | zero => intro t s R _ _ e h; exact absurd h (by simp [registryGet])
  | succ f ih => exact eg_succ f (er_of_eg f ih)

/-- `add` touches only the ledger mark and the factory slot: the cached
objects, once-flags and all counters are untouched (no construction happens
at registration time, src/cpp_di.hpp:188-238). -/
theorem di_add_passive (w : World) (i t : Ty) (s : State) :
    (di_add w i t s).cache = s.cache ∧ (di_add w i t s).running = s.running ∧
    (di_add w i t s).facRuns = s.facRuns ∧ (di_add w i t s).implRuns = s.implRuns ∧
    (di_add w i t s).nextId = s.nextId := by
  unfold di_add
  by_cases h : (s.ctors i).isSome = true
  · rw [if_pos h]; exact ⟨rfl, rfl, rfl, rfl, rfl⟩
  · rw [if_neg h]; exact ⟨rfl, rfl, rfl, rfl, rfl⟩

/-- A whole wiring phase is passive in the same sense. -/
theorem applyAdds_passive (w : World) (l : List (Ty × Ty)) (s : State) :
    (applyAdds w l s).cache = s.cache ∧ (applyAdds w l s).running = s.running ∧
    (applyAdds w l s).facRuns = s.facRuns ∧ (applyAdds w l s).implRuns = s.implRuns := by
  induction l generalizing s with
  | nil => exact ⟨rfl, rfl, rfl, rfl⟩
  | cons p l ih =>
    obtain ⟨h1, h2, h3, h4⟩ := ih (di_add w p.1 p.2 s)
    obtain ⟨g1, g2, g3, g4, -⟩ := di_add_passive w p.1 p.2 s
    exact ⟨h1.trans g1, h2.trans g2, h3.trans g3, h4.trans g4⟩

/-- When the interface already has a stored factory, `add` only re-marks the
ledger (a no-op when the mark is present) and leaves everything else as it
was (src/cpp_di.hpp:193-196, 215-218). -/
theorem di_add_noop (w : World) (i b : Ty) (s : State)
    (hm : s.marks i = true) (hc : (s.ctors i).isSome = true) :
    di_add w i b s = s := by
  unfold di_add
  have hmarks : setF s.marks i true = s.marks := by
    funext u
    by_cases hu : u = i
    · subst hu; simp [setF, hm]
    · simp [setF, hu]
  rw [if_pos hc, hmarks]

/-- When the interface has no stored factory yet, `add` marks it and stores
the factory built for the implementation. -/
theorem di_add_stores (w : World) (i t : Ty) (s : State)
    (hc : s.ctors i = none) :
    di_add w i t s =
      { s with marks := setF s.marks i true,
               ctors := setF s.ctors i (factoryFor w t) } := by
  unfold di_add
  rw [if_neg (by rw [hc]; simp)]

/-- The state after a first `get` on a type bound to a dependency-free
factory (the default-constructible branch of `add`): a fresh instance id is
cached under the type, the once-flag cycles through active back to clear,
and both counters step. -/
def defaultStep (s : State) (t m : Ty) : State :=
  { s with
    cache := setF s.cache t (some s.nextId),
    running := setF (setF s.running t true) t false,
    nextId := s.nextId + 1,
    facRuns := bumpF s.facRuns t,
    implRuns := bumpF s.implRuns m }

theorem defaultStep_ctors (s : State) (t m : Ty) :
    (defaultStep s t m).ctors = s.ctors := rfl

theorem defaultStep_nextId (s : State) (t m : Ty) :
    (defaultStep s t m).nextId = s.nextId + 1 := rfl

theorem defaultStep_cache_self (s : State) (t m : Ty) :
    (defaultStep s t m).cache t = some s.nextId := by
  simp [defaultStep, setF]

theorem defaultStep_cache_other (s : State) (t m v : Ty) (h : v ≠ t) :
    (defaultStep s t m).cache v = s.cache v := by
  simp [defaultStep, setF, h]

theorem defaultStep_running_other (s : State) (t m v : Ty) (h : v ≠ t) :
    (defaultStep s t m).running v = s.running v := by
  simp [defaultStep, setF, h]

theorem defaultStep_implRuns_self (s : State) (t m : Ty) :
    (defaultStep s t m).implRuns m = s.implRuns m + 1 := by
  simp [defaultStep, bumpF, setF]

/-- Closed form of a first `get` on a type bound to a dependency-free
factory: the factory runs and the state takes a `defaultStep`. -/
theorem registryGet_defaultStep (f : Nat) (t m : Ty) (s : State)
    (hc : s.cache t = none) (hrt : s.running t = false)
    (hf : s.ctors t = some ⟨m, []⟩) :
    registryGet (f + 1) t s = some (.ok (defaultStep s t m, s.nextId)) := by
  simp only [registryGet]
  rw [hc]
  dsimp only
  rw [hrt]
  simp only [Bool.false_eq_true, if_false]
  rw [hf]
  dsimp only [resolveDepsWith]
  rfl

/-- `fields_number_ctor`, from any starting count: a returned count is at
least the start, is viable, and every count from the start below it is not
viable (the recursion stops at the first success). -/
theorem fields_number_ctor_spec (viable : Nat → Bool) (fuel : Nat) :
    ∀ i n, fields_number_ctor viable fuel i = some n →
      i ≤ n ∧ viable n = true ∧ ∀ k, i ≤ k → k < n → viable k = false := by
  induction fuel with
  | zero => intro i n h; exact absurd h (by simp [fields_number_ctor])
  | succ fuel ih =>
    intro i n h
    simp only [fields_number_ctor] at h
    by_cases hv : viable i
    · rw [if_pos hv] at h
      simp only [Option.some.injEq] at h
      subst h
      exact ⟨le_refl i, hv, fun k hk1 hk2 => absurd (lt_of_le_of_lt hk1 hk2) (lt_irrefl i)⟩
    · rw [if_neg hv] at h
      obtain ⟨h1, h2, h3⟩ := ih (i + 1) n h
      refine ⟨le_trans (Nat.le_succ i) h1, h2, fun k hk1 hk2 => ?_⟩
      rcases Nat.eq_or_lt_of_le hk1 with hk | hk
      · rw [← hk]
        cases hb : viable i with
        | false => rfl
        | true => exact absurd hb hv
      · exact h3 k hk hk2

/-- `fields_number_ctor` completeness: with enough recursion depth it does
return the first viable count at or after the start. -/
theorem fields_number_ctor_complete (viable : Nat → Bool) (fuel : Nat) :
    ∀ i n, i ≤ n → viable n = true → (∀ k, i ≤ k → k < n → viable k = false) →
      n < i + fuel → fields_number_ctor viable fuel i = some n := by
  induction fuel with
  | zero => intro i n h1 _ _ h4; omega
  | succ fuel ih =>
    intro i n h1 h2 h3 h4
    simp only [fields_number_ctor]
    rcases Nat.eq_or_lt_of_le h1 with hi | hi
    · subst hi
      rw [if_pos h2]
    · rw [if_neg (by simp [h3 i (le_refl i) hi])]
      exact ih (i + 1) n hi h2 (fun k hk1 hk2 => h3 k (Nat.le_of_succ_le hk1) hk2) (by omega)

/-- `fields_number`, from any starting count: a returned value `r` means
every count from the start with `(k : Int) ≤ r` was viable and the count
`(r + 1).toNat` (the first failure) was not; the result is exactly the
first non-viable count minus one. -/
theorem fields_number_spec (viable : Nat → Bool) (fuel : Nat) :
    ∀ i r, fields_number viable fuel i = some r →
      (i : Int) - 1 ≤ r ∧ (r + 1).toNat = r + 1 ∧
      viable ((r + 1).toNat) = false ∧
      ∀ k : Nat, i ≤ k → (k : Int) ≤ r → viable k = true := by
  induction fuel with
  | zero => intro i r h; exact absurd h (by simp [fields_number])
  | succ fuel ih =>
    intro i r h
    simp only [fields_number] at h
    by_cases hv : viable i
    · rw [if_pos hv] at h
      obtain ⟨h1, h2, h3, h4⟩ := ih (i + 1) r h
      refine ⟨by push_cast at h1 ⊢; omega, h2, h3, fun k hk1 hk2 => ?_⟩
      rcases Nat.eq_or_lt_of_le hk1 with hk | hk
      · subst hk; exact hv
      · exact h4 k hk hk2
    · rw [if_neg hv] at h
      simp only [Option.some.injEq] at h
      subst h
      refine ⟨by omega, by omega, ?_, fun k hk1 hk2 => by omega⟩
      have : ((i : Int) - 1 + 1).toNat = i := by omega
      rw [this]
      cases hb : viable i with
      | false => rfl
      | true => exact absurd hb hv

/-- A reentrant `get` on a type whose once-initialization is active does not
finish (the `call_once` self-deadlock). -/
theorem registryGet_running_none (f : Nat) (t : Ty) (s : State)
    (hc : s.cache t = none) (hr : s.running t = true) :
    registryGet f t s = none := by
  cases f with
  | zero => rfl
  | succ f =>
    simp only [registryGet]
    rw [hc]
    dsimp only
    rw [if_pos hr]

/-- Claim C1: for every registered type `T`, repeated `get<T>()` calls
return handles to the identical instance: a successful call leaves the
handle cached, every later call returns exactly that cached handle and
changes nothing (so the factory is not re-invoked), and across the calls
the stored factory runs at most once. -/
theorem claim_C1 (f g : Nat) (t : Ty) (s s' : State) (id : Nat)
    (h : registryGet f t s = some (.ok (s', id))) :
    registryGet (g + 1) t s' = some (.ok (s', id)) ∧
    s'.facRuns t ≤ s.facRuns t + 1 := by
  refine ⟨registryGet_cached g t s' id (registryGet_cacheSet f t s s' id h), ?_⟩
  cases f with
  | zero => exact absurd h (by simp [registryGet])
  | succ f =>
    cases hc : s.cache t with
    | some j =>
      rw [registryGet_cached f t s j hc] at h
      simp only [Option.some.injEq, Except.ok.injEq, Prod.mk.injEq] at h
      obtain ⟨rfl, -⟩ := h
      omega
    | none =>
      cases hr : s.running t with
      | true => rw [registryGet_running_none (f + 1) t s hc hr] at h; exact absurd h (by simp)
      | false =>
        rw [registryGet_exactOnce f t s s' id hc hr h]

/-- Witness for C1 on a concrete one-binding wiring. -/
theorem claim_C1_witness :
    registryGet 1 0 (resPState (registryGet 1 0 oneAddState)) =
      some (.ok (resPState (registryGet 1 0 oneAddState), 0)) ∧
    (resPState (registryGet 1 0 oneAddState)).facRuns 0 ≤ oneAddState.facRuns 0 + 1 :=
  claim_C1 1 0 0 oneAddState (resPState (registryGet 1 0 oneAddState)) 0 rfl

/-- Claim C2: once `add<Interface, ImplA>` has stored a factory for the
interface, a later `add<Interface, ImplB>` is a complete no-op (the state is
unchanged, so the stored factory is unchanged), and the stored factory
constructs `ImplA`, never `ImplB`. -/
theorem claim_C2 (w w' : World) (i a b : Ty) (s : State) (fa : Factory)
    (hc : s.ctors i = none) (hf : factoryFor w a = some fa) :
    (di_add w i a s).ctors i = some fa ∧
    di_add w' i b (di_add w i a s) = di_add w i a s ∧
    fa.impl = a := by
  have h1 := di_add_stores w i a s hc
  have hctor : (di_add w i a s).ctors i = some fa := by
    rw [h1]
    show setF s.ctors i (factoryFor w a) i = some fa
    simp [setF, hf]
  refine ⟨hctor, ?_, ?_⟩
  · apply di_add_noop
    · rw [h1]
      show setF s.marks i true i = true
      simp [setF]
    · rw [hctor]
      rfl
  · unfold factoryFor at hf
    by_cases hd : w.defaultConstructible a
    · rw [if_pos hd] at hf
      simp only [Option.some.injEq] at hf
      rw [← hf]
    · rw [if_neg hd] at hf
      cases hp : construct_tuple_plan a (w.sig a) with
      | error er => rw [hp] at hf; exact absurd hf (by simp)
      | ok es =>
        rw [hp] at hf
        simp only [Option.some.injEq] at hf
        rw [← hf]

/-- Witness for C2: bind interface 0 to implementation 1, then try 2. -/
theorem claim_C2_witness :
    (di_add wDefault 0 1 initState).ctors 0 = some ⟨1, []⟩ ∧
    di_add wDefault 0 2 (di_add wDefault 0 1 initState) = di_add wDefault 0 1 initState ∧
    (Factory.mk 1 []).impl = 1 :=
  claim_C2 wDefault wDefault 0 1 2 initState ⟨1, []⟩ rfl rfl

/-- Claim C3: after any wiring phase (a sequence of `add` calls from the
initial state) the factory for `T` — and with it `T`'s implementation
constructor for that binding — has run zero times; a first successful
`get<T>()` makes the count exactly one, and every further `get<T>()`
returns the same handle with the state (hence the count) unchanged. -/
theorem claim_C3 (w : World) (l : List (Ty × Ty)) (t : Ty) (f g : Nat)
    (s' : State) (id : Nat) :
    (applyAdds w l initState).facRuns t = 0 ∧
    (registryGet f t (applyAdds w l initState) = some (.ok (s', id)) →
      s'.facRuns t = 1 ∧ registryGet (g + 1) t s' = some (.ok (s', id))) := by
  obtain ⟨hcache, hrun, hfac, -⟩ := applyAdds_passive w l initState
  have hfac0 : (applyAdds w l initState).facRuns t = 0 := by rw [hfac]; rfl
  refine ⟨hfac0, fun h => ⟨?_, ?_⟩⟩
  · cases f with
    | zero => exact absurd h (by simp [registryGet])
    | succ f =>
      have hc : (applyAdds w l initState).cache t = none := by rw [hcache]; rfl
      have hr : (applyAdds w l initState).running t = false := by rw [hrun]; rfl
      rw [registryGet_exactOnce f t _ s' id hc hr h, hfac0]
  · exact registryGet_cached g t s' id (registryGet_cacheSet f t _ s' id h)

/-- Witness for C3 on the wiring `add<0, 0>` followed by one `get<0>`. -/
theorem claim_C3_witness :
    (applyAdds wDefault [(0, 0)] initState).facRuns 0 = 0 ∧
    (resPState (registryGet 1 0 (applyAdds wDefault [(0, 0)] initState))).facRuns 0 = 1 :=
  ⟨(claim_C3 wDefault [(0, 0)] 0 1 0 initState 0).1,
   ((claim_C3 wDefault [(0, 0)] 0 1 0
      (resPState (registryGet 1 0 (applyAdds wDefault [(0, 0)] initState))) 0).2 rfl).1⟩

/-- Claim C4: `get<T>` compiles only if some `add<T, ...>` in the
translation created a ledger mark for `T` (so a compiling program contains
a registration for every type it gets), and when the mark is missing the
build diagnostic produced by `check_type` names the unregistered type
itself.  The check is part of `progCompiles`, i.e. of the build — the
runtime `registryGet` never consults the ledger. -/
theorem claim_C4 (w : World) (P : List Op) (t : Ty) :
    (progCompiles w P = true → Op.getOp t ∈ P → ∃ u, Op.addOp t u ∈ P) ∧
    (progMarks P t = false → check_type (progMarks P) t = Except.error t) := by
  constructor
  · intro hC hmem
    have h1 := List.all_eq_true.mp hC _ hmem
    simp only [opCompiles, check_type] at h1
    by_cases hm : progMarks P t = true
    · obtain ⟨op, hop, hpred⟩ := List.any_eq_true.mp hm
      cases op with
      | addOp i u =>
        have hit : i = t := by simpa using hpred
        subst hit
        exact ⟨u, hop⟩
      | getOp v => simp at hpred
    · rw [if_neg hm] at h1
      simp [Except.isOk, Except.toBool] at h1
  · intro hm
    unfold check_type
    rw [hm]
    simp

/-- Witness for C4: a program with an unmarked `get` produces the
diagnostic naming the type. -/
theorem claim_C4_witness :
    check_type (progMarks [Op.getOp 5]) 5 = Except.error 5 :=
  (claim_C4 wDefault [Op.getOp 5] 5).2 rfl

/-- Counterexample to claim C5 as stated: the claim quantifies over every
runtime order of `add` and `get`.  The program `get<0>(); add<0, 0>();`
compiles — the ledger is populated by template instantiation, which is
order-independent, so `check_type<0>` succeeds — but at runtime the `get`
executes while `registry<0>::constructor` is still the empty
`std::function`, which throws `std::bad_function_call`: a compiled program
whose `get` neither succeeds nor blocks forever. -/
theorem claim_C5_counterexample :
    progCompiles wDefault progGetBeforeAdd = true ∧
    isErrorRun (runProg 5 wDefault progGetBeforeAdd initState) = true :=
  ⟨rfl, rfl⟩

/-- Claim C5, amended: once the program compiles, a `get<T>()` call made
after the wiring phase has stored a factory for `T` and for every type in
`T`'s transitive dependency closure (a set of types containing `T`, each
with a stored factory whose dependency element types stay in the set —
exactly the types the call resolves) never returns an error and never
throws: it either succeeds or fails to terminate (blocks forever, e.g. on
a cyclic dependency).  If some factory evaluated during the call is
missing, `get` throws `bad_function_call` even though the program
compiled. -/
theorem claim_C5_amended (s : State) (R : Ty → Prop) (t : Ty) (f : Nat)
    (hR : ClosedWired s R) (ht : R t) (e : RtErr) :
    registryGet f t s ≠ some (.error e) :=
  eg_all f t s R hR ht e

/-- Witness for the amended C5 on the wiring-reachable `chainState`, whose
interface 0 depends on type 1: the closure of 0 is wired, so `get<0>`
cannot throw. -/
theorem claim_C5_witness :
    registryGet 2 0 chainState ≠ some (.error (.badFunctionCall 0)) :=
  claim_C5_amended chainState depsR 0 2
    (by
      intro v hv
      rcases hv with rfl | rfl
      · refine ⟨⟨2, [1]⟩, rfl, ?_⟩
        intro e he
        simp only [List.mem_singleton] at he
        subst he
        exact Or.inr rfl
      · exact ⟨⟨1, []⟩, rfl, fun e he => absurd he (by simp)⟩)
    (Or.inl rfl) (.badFunctionCall 0)

/-- Claim C6: `fields_number_ctor` returns the smallest probe count for
which direct parenthesized construction succeeds — it stops at the first
success (every smaller count is non-viable), so longer viable overloads
are never discovered; conversely, the first viable count is returned
whenever the recursion depth permits reaching it. -/
theorem claim_C6 (viable : Nat → Bool) (fuel n : Nat) :
    (fields_number_ctor viable fuel 0 = some n →
      viable n = true ∧ ∀ k, k < n → viable k = false) ∧
    (viable n = true → (∀ k, k < n → viable k = false) → n < fuel →
      fields_number_ctor viable fuel 0 = some n) := by
  constructor
  · intro h
    obtain ⟨-, h2, h3⟩ := fields_number_ctor_spec viable fuel 0 n h
    exact ⟨h2, fun k hk => h3 k (Nat.zero_le k) hk⟩
  · intro h1 h2 h3
    exact fields_number_ctor_complete viable fuel 0 n (Nat.zero_le n) h1
      (fun k _ hk => h2 k hk) (by omega)

/-- A type whose direct construction succeeds exactly at probe count 2
(e.g. a single two-parameter user constructor). -/
def viableAt2 : Nat → Bool := fun k => k == 2

/-- Witness for C6: for a two-parameter constructor the probing returns 2. -/
theorem claim_C6_witness :
    fields_number_ctor viableAt2 10 0 = some 2 :=
  (claim_C6 viableAt2 10 2).2 rfl (by decide) (by decide)

/-- List-initialization viability of a two-field aggregate: `T{...}` is
well-formed from 0, 1 or 2 probe values and from no more. -/
def aggViable2 : Nat → Bool := fun n => decide (n ≤ 2)

/-- Counterexample to claim C7 as stated: for a two-field aggregate the
largest probe count for which list-initialization succeeds is 2
(`aggViable2 2 = true`, `aggViable2 3 = false`), so the claim predicts the
result `2 - 1 = 1`; but `fields_number` recurses while the count is viable
and, at the first failing count, returns that count minus one — here
`3 - 1 = 2`, not `1`. -/
theorem claim_C7_counterexample :
    fields_number aggViable2 10 0 = some 2 ∧
    aggViable2 2 = true ∧ aggViable2 3 = false ∧
    fields_number aggViable2 10 0 ≠ some ((2 : Int) - 1) :=
  ⟨rfl, rfl, rfl, by decide⟩

/-- Claim C7, amended: aggregate-field counting returns the smallest probe
count at which list-initialization fails, minus one — every count up to the
result is viable and the next one is not; since aggregate list-init
viability is downward closed this equals the largest succeeding count (not
that count minus one).  The recorded parameter types, read back in index
order by `as_tuple`, form the ParameterSignature. -/
theorem claim_C7_amended (viable : Nat → Bool) (rcd : Nat → Ty) (fuel : Nat)
    (r : Int) (l : List Ty) :
    (fields_number viable fuel 0 = some r →
      (∀ k : Nat, (k : Int) ≤ r → viable k = true) ∧
      ((r + 1).toNat : Int) = r + 1 ∧ viable ((r + 1).toNat) = false) ∧
    (as_tuple viable rcd fuel = some l →
      ∀ i (h : i < l.length), l[i] = rcd i) := by
  constructor
  · intro h
    obtain ⟨h1, h2, h3, h4⟩ := fields_number_spec viable fuel 0 r h
    exact ⟨fun k hk => h4 k (Nat.zero_le k) hk, by omega, h3⟩
  · intro h i hi
    unfold as_tuple at h
    cases hn : fields_number_ctor viable fuel 0 with
    | none => rw [hn] at h; exact absurd h (by simp)
    | some n =>
      rw [hn] at h
      simp only [Option.map_some', Option.some.injEq] at h
      subst h
      simp [List.getElem_map, List.getElem_range]

/-- The recorded types for the witness: index `n` recorded type `n + 10`. -/
def rcd10 : Nat → Ty := fun n => n + 10

/-- Witness for the amended C7: counts 1 and 3 on the two-field aggregate,
and index-order readback of a discovered two-entry signature. -/
theorem claim_C7_witness :
    aggViable2 1 = true ∧ aggViable2 3 = false ∧
    ([10, 11] : List Ty)[1] = rcd10 1 :=
  ⟨((claim_C7_amended aggViable2 rcd10 10 2 []).1 rfl).1 1 (by decide),
   ((claim_C7_amended aggViable2 rcd10 10 2 []).1 rfl).2.2,
   (claim_C7_amended viableAt2 rcd10 10 0 [10, 11]).2 rfl 1 (by decide)⟩

/-- Claim C8: if the discovered signature contains a parameter that is not
a `shared_ptr`, the `construct_tuple` plan fails the build with a
diagnostic carrying the offending class and the offending parameter type;
when every parameter is a `shared_ptr`, the failure branch is unreachable
and the plan resolves each parameter via `get` on its element type,
positionally in signature order. -/
theorem claim_C8 (base : Ty) (ps : List CtorParam) :
    (firstNonSptr ps = none →
      construct_tuple_plan base ps = .ok (ps.map CtorParam.elemTy)) ∧
    (∀ q, firstNonSptr ps = some q →
      construct_tuple_plan base ps = .error (base, q) ∧
      q.isSptr = false ∧ q ∈ ps) := by
  induction ps with
  | nil =>
    refine ⟨fun _ => rfl, fun q hq => ?_⟩
    simp [firstNonSptr] at hq
  | cons p ps ih =>
    cases p with
    | sptr e =>
      have hstep : firstNonSptr (CtorParam.sptr e :: ps) = firstNonSptr ps := by
        simp [firstNonSptr, List.find?_cons, CtorParam.isSptr]
      constructor
      · intro h
        rw [hstep] at h
        show (match construct_tuple_plan base ps with
              | .error er => Except.error er
              | .ok es => Except.ok (e :: es)) =
          Except.ok (e :: ps.map CtorParam.elemTy)
        rw [ih.1 h]
      · intro q hq
        rw [hstep] at hq
        obtain ⟨h1, h2, h3⟩ := ih.2 q hq
        refine ⟨?_, h2, List.mem_cons_of_mem _ h3⟩
        show (match construct_tuple_plan base ps with
              | .error er => Except.error er
              | .ok es => Except.ok (e :: es)) = Except.error (base, q)
        rw [h1]
    | plain u =>
      have hstep : firstNonSptr (CtorParam.plain u :: ps) = some (CtorParam.plain u) := by
        simp [firstNonSptr, List.find?_cons, CtorParam.isSptr]
      constructor
      · intro h
        rw [hstep] at h
        exact absurd h (by simp)
      · intro q hq
        rw [hstep] at hq
        simp only [Option.some.injEq] at hq
        subst hq
        exact ⟨rfl, rfl, List.mem_cons_self _ _⟩

/-- Witness for C8: an all-handle signature resolves positionally; a plain
`int`-like second parameter fails naming class 7 and the parameter. -/
theorem claim_C8_witness :
    construct_tuple_plan 7 [CtorParam.sptr 1, CtorParam.sptr 2] = .ok [1, 2] ∧
    construct_tuple_plan 7 [CtorParam.sptr 1, CtorParam.plain 3] =
      .error (7, CtorParam.plain 3) :=
  ⟨(claim_C8 7 [CtorParam.sptr 1, CtorParam.sptr 2]).1 rfl,
   ((claim_C8 7 [CtorParam.sptr 1, CtorParam.plain 3]).2 (CtorParam.plain 3) rfl).1⟩

/-- A bare class type named 0 (no cv-qualifier, no reference). -/
def tySelf : CppTy := ⟨0, false, false, false⟩

/-- A second bare class type, distinct from `tySelf`. -/
def tyOther : CppTy := ⟨1, false, false, false⟩

/-- A third bare class type. -/
def tyThird : CppTy := ⟨2, false, false, false⟩

/-- Counterexample to claim C9 as stated: not every probe value used by
discovery is non-convertible to `T`.  At the attempt with two probe values,
index 0 was already registered by the previous attempt
(`probeRegistered 2 0 = true`), so `cloophole(tag<T, 0>)` is defined and
the conversion of `c_op<T, 0>` to any `U` — including `T` itself — is
viable through the unconstrained empty specialization
`fn_def<T, U, N, true>` (src/cpp_di.hpp:36): the probe is convertible to
a type equal to `T` modulo cv-qualifiers and references. -/
theorem claim_C9_counterexample :
    c_op_convertible tySelf (probeRegistered 2 0) tySelf = true ∧
    stripCvRef tySelf = stripCvRef tySelf :=
  ⟨rfl, rfl⟩

/-- Claim C9, amended: at a fresh (not yet registered) index the probe is
not convertible to `T` itself modulo cv-qualifiers and references — the
defining `fn_def` instantiation is `enable_if`-guarded by that very
condition — so discovery never selects `T`'s copy or move constructor at a
fresh probe, and every type recorded during discovery passed the guard: a
discovered ParameterSignature never contains `T` itself (modulo
cv-qualifiers and references). -/
theorem claim_C9_amended (t u : CppTy) (fts sig : List CppTy) :
    (c_op_convertible t false u = true → stripCvRef u ≠ stripCvRef t) ∧
    (discoverSig t fts = some sig →
      ∀ v ∈ sig, stripCvRef v ≠ stripCvRef t) := by
  constructor
  · intro h heq
    simp [c_op_convertible, fn_def_enabled, heq] at h
  · intro h v hv heq
    unfold discoverSig at h
    by_cases hall : fts.all (fun u => fn_def_enabled t u) = true
    · rw [if_pos hall] at h
      simp only [Option.some.injEq] at h
      subst h
      have hg := List.all_eq_true.mp hall v hv
      simp only [fn_def_enabled, Bool.not_eq_true', beq_eq_false_iff_ne, ne_eq] at hg
      exact hg heq.symm
    · rw [if_neg hall] at h
      exact absurd h (by simp)

/-- Witness for the amended C9: a fresh probe for class 0 converting to
class 2, and a discovered one-entry signature for class 0 recording
class 1; neither type coincides with class 0. -/
theorem claim_C9_witness :
    stripCvRef tyThird ≠ stripCvRef tySelf ∧
    stripCvRef tyOther ≠ stripCvRef tySelf :=
  ⟨(claim_C9_amended tySelf tyThird [] []).1 rfl,
   (claim_C9_amended tySelf tyOther [tyOther] [tyOther]).2 rfl tyOther (by simp)⟩

/-- Claim C10: bindings and cached singletons are keyed by the abstract
type alone.  After `add<I1, Impl>` and `add<I2, Impl>` for distinct
interfaces, a first `get<I1>` and then a first `get<I2>` each run `Impl`'s
construction independently (the construction counter for `Impl` reaches 2)
and the two interfaces end up cached with two distinct instance ids. -/
theorem claim_C10 (w : World) (i1 i2 m : Ty) (f g : Nat) (s1 s2 : State)
    (a b : Nat) (h12 : i1 ≠ i2) (hd : w.defaultConstructible m = true)
    (h1 : registryGet (f + 1) i1 (di_add w i2 m (di_add w i1 m initState)) =
      some (.ok (s1, a)))
    (h2 : registryGet (g + 1) i2 s1 = some (.ok (s2, b))) :
    a ≠ b ∧ s2.implRuns m = 2 ∧ s2.cache i1 = some a ∧ s2.cache i2 = some b := by
  have hfa : factoryFor w m = some ⟨m, []⟩ := by
    unfold factoryFor
    rw [if_pos hd]
  have e1 := di_add_stores w i1 m initState rfl
  have hA1ctors2 : (di_add w i1 m initState).ctors i2 = none := by
    rw [e1]
    show setF initState.ctors i1 (factoryFor w m) i2 = none
    simp only [setF]
    rw [if_neg (Ne.symm h12)]
    rfl
  have e2 := di_add_stores w i2 m (di_add w i1 m initState) hA1ctors2
  obtain ⟨p1c, p1r, p1f, p1i, p1n⟩ := di_add_passive w i1 m initState
  obtain ⟨p2c, p2r, p2f, p2i, p2n⟩ := di_add_passive w i2 m (di_add w i1 m initState)
  have hc0 : (di_add w i2 m (di_add w i1 m initState)).cache i1 = none := by
    rw [p2c, p1c]; rfl
  have hr0 : (di_add w i2 m (di_add w i1 m initState)).running i1 = false := by
    rw [p2r, p1r]; rfl
  have hctorA : (di_add w i2 m (di_add w i1 m initState)).ctors i1 = some ⟨m, []⟩ := by
    rw [e2]
    show setF (di_add w i1 m initState).ctors i2 (factoryFor w m) i1 = some ⟨m, []⟩
    simp only [setF]
    rw [if_neg h12, e1]
    show setF initState.ctors i1 (factoryFor w m) i1 = some ⟨m, []⟩
    simp only [setF, if_pos]
    exact hfa
  have hctorB : (di_add w i2 m (di_add w i1 m initState)).ctors i2 = some ⟨m, []⟩ := by
    rw [e2]
    show setF (di_add w i1 m initState).ctors i2 (factoryFor w m) i2 = some ⟨m, []⟩
    simp only [setF, if_pos]
    exact hfa
  rw [registryGet_defaultStep f i1 m _ hc0 hr0 hctorA] at h1
  simp only [Option.some.injEq, Except.ok.injEq, Prod.mk.injEq] at h1
  obtain ⟨hs1, ha⟩ := h1
  subst hs1
  subst ha
  have hc1 : (defaultStep (di_add w i2 m (di_add w i1 m initState)) i1 m).cache i2 = none := by
    rw [defaultStep_cache_other _ _ _ _ (Ne.symm h12), p2c, p1c]
    rfl
  have hr1 : (defaultStep (di_add w i2 m (di_add w i1 m initState)) i1 m).running i2 = false := by
    rw [defaultStep_running_other _ _ _ _ (Ne.symm h12), p2r, p1r]
    rfl
  have hctor1 : (defaultStep (di_add w i2 m (di_add w i1 m initState)) i1 m).ctors i2 = some ⟨m, []⟩ := by
    rw [defaultStep_ctors]
    exact hctorB
  rw [registryGet_defaultStep g i2 m _ hc1 hr1 hctor1] at h2
  simp only [Option.some.injEq, Except.ok.injEq, Prod.mk.injEq] at h2
  obtain ⟨hs2, hb⟩ := h2
  subst hs2
  subst hb
  refine ⟨?_, ?_, ?_, ?_⟩
  · rw [defaultStep_nextId]
    omega
  · rw [defaultStep_implRuns_self, defaultStep_implRuns_self, p2i, p1i]
    rfl
  · rw [defaultStep_cache_other _ _ _ _ h12, defaultStep_cache_self]
  · rw [defaultStep_cache_self, defaultStep_nextId]

/-- The wiring of the C10 witness: two distinct interfaces 0 and 1 bound to
the same implementation 2. -/
def twoIfaceState : State := di_add wDefault 1 2 (di_add wDefault 0 2 initState)

/-- Witness for C10 on interfaces 0 and 1 sharing implementation 2. -/
theorem claim_C10_witness :
    (0 : Nat) ≠ 1 ∧
    (resPState (registryGet 1 1 (resPState (registryGet 1 0 twoIfaceState)))).implRuns 2 = 2 ∧
    (resPState (registryGet 1 1 (resPState (registryGet 1 0 twoIfaceState)))).cache 0 = some 0 ∧
    (resPState (registryGet 1 1 (resPState (registryGet 1 0 twoIfaceState)))).cache 1 = some 1 :=
  claim_C10 wDefault 0 1 2 0 0
    (resPState (registryGet 1 0 twoIfaceState))
    (resPState (registryGet 1 1 (resPState (registryGet 1 0 twoIfaceState))))
    0 1 (by decide) rfl rfl rfl
